import Mathlib

/-!
Verification of `plot.py` (whister repository).

The script is a linear pipeline: `pd.read_csv('out.csv')`, then
`data.pivot(index='discount', columns='learning_rate', values='score')`,
then a seaborn heatmap with `cmap='viridis'`, `annot=True`, `fmt=".4f"`,
`cbar_kws={'label': 'Score'}`, title `'2D Grid of Scores'`, x-label
`'Learning Rate'`, y-label `'Discount'`.

Numeric values are embedded as rationals; a table is a list of rows with
the three columns the script touches.  `pandas.DataFrame.pivot` is
library code whose source is not part of this repository; it is modelled
below (`pivot`) from its documented semantics as invoked at
`src/plot.py` line 7: the distinct index values become the (ascending
sorted) row keys, the distinct column values become the (ascending
sorted) column keys, each cell holds the value of the unique matching
row (`none`, i.e. NaN, when no row matches), and a duplicate
(index, columns) pair raises `ValueError: Index contains duplicate
entries, cannot reshape`.
-/

namespace Whister

/-- One row of the results table: the three columns used by the script. -/
structure Row where
  discount : ℚ
  learning_rate : ℚ
  score : ℚ
deriving DecidableEq, Repr

/-- The results table loaded by `pd.read_csv`. -/
abbrev Table := List Row

/-- The (index, columns) key of a row, as used by
`data.pivot(index='discount', columns='learning_rate', ...)`. -/
def pairKey (r : Row) : ℚ × ℚ := (r.discount, r.learning_rate)

/-- The distinct values of a column, in ascending order: how a pivot
axis is built from the corresponding column of the table. -/
def distinctSorted (l : List ℚ) : List ℚ :=
  List.insertionSort (· ≤ ·) l.dedup

/-- The pivoted grid: row keys (distinct discounts), column keys
(distinct learning rates) and the matrix of cells; `none` is NaN. -/
structure Grid where
  rowKeys : List ℚ
  colKeys : List ℚ
  cells : List (List (Option ℚ))
deriving DecidableEq, Repr

/-- The score of the unique row with the given (discount, learning_rate)
key, if any. -/
def lookupScore (t : Table) (d l : ℚ) : Option ℚ :=
  ((t.filter fun r => decide (r.discount = d ∧ r.learning_rate = l)).head?).map Row.score

/-- The grid built by a successful pivot. -/
def pivotGrid (t : Table) : Grid :=
  { rowKeys := distinctSorted (t.map Row.discount)
    colKeys := distinctSorted (t.map Row.learning_rate)
    cells := (distinctSorted (t.map Row.discount)).map fun d =>
      (distinctSorted (t.map Row.learning_rate)).map fun l => lookupScore t d l }

/-- The errors the script can die of. -/
inductive Err where
  | fileNotFound : Err
  | duplicateIndex : Err
deriving DecidableEq, Repr

/-- Modelled from the spec: `pandas.DataFrame.pivot` as called at
`src/plot.py` line 7 — its source is third-party library code, not part
of this repository.  Per the spec's Reshape operation and pandas'
documented behaviour, it pivots the table so that distinct `discount`
values become rows and distinct `learning_rate` values become columns,
each cell holding the corresponding `score`, and raises an error when a
(discount, learning_rate) pair is duplicated (ambiguous cell value). -/
def pivot (t : Table) : Except Err Grid :=
  if (t.map pairKey).Nodup then .ok (pivotGrid t) else .error .duplicateIndex

/-- Cell access in a grid by (discount, learning_rate) key: `none` when
the key is absent from the axes, `some c` when the cell exists (where
`c = none` renders as NaN). -/
def Grid.lookup (g : Grid) (d l : ℚ) : Option (Option ℚ) :=
  if d ∈ g.rowKeys ∧ l ∈ g.colKeys then
    (g.cells[g.rowKeys.indexOf d]?).bind fun row => row[g.colKeys.indexOf l]?
  else none

/-- The character for a decimal digit. -/
def digitChar (d : Nat) : Char := Char.ofNat (48 + d)

/-- The decimal digits of a natural number, most significant first;
`fuel` bounds the recursion depth (any `fuel > n` is enough). -/
def natToDigitsAux : Nat → Nat → List Char
  | 0, _ => []
  | fuel + 1, n =>
    if n < 10 then [digitChar n]
    else natToDigitsAux fuel (n / 10) ++ [digitChar (n % 10)]

/-- The decimal digits of a natural number, most significant first. -/
def natToDigits (n : Nat) : List Char := natToDigitsAux (n + 1) n

/-- Python `"%.4f"` formatting (the heatmap's `fmt=".4f"`): the value
rounded to four decimal places, printed with exactly four digits after
the decimal point. -/
def formatFixed4 (q : ℚ) : String :=
  let n : ℤ := round (q * 10000)
  let m : Nat := n.natAbs
  (if n < 0 then "-" else "") ++
    String.mk (natToDigits (m / 10000)) ++ "." ++
    String.mk [digitChar (m % 10000 / 1000), digitChar (m % 1000 / 100),
      digitChar (m % 100 / 10), digitChar (m % 10)]

/-- The heatmap drawn by `sns.heatmap(grid_data, cmap='viridis',
annot=True, fmt=".4f", cbar_kws={'label': 'Score'})` plus the title and
axis labels: the grid, the colour map, the per-cell annotations
(formatted scores; `none` for NaN cells, which seaborn leaves blank),
and the labels. -/
structure Heatmap where
  grid : Grid
  cmap : String
  annotations : List (List (Option String))
  cbarLabel : String
  title : String
  xlabel : String
  ylabel : String
deriving DecidableEq, Repr

/-- The Render step: `sns.heatmap(...)`, `plt.title(...)`,
`plt.xlabel(...)`, `plt.ylabel(...)` from `src/plot.py` lines 10-13. -/
def render (g : Grid) : Heatmap :=
  { grid := g
    cmap := "viridis"
    annotations := g.cells.map (List.map (Option.map formatFixed4))
    cbarLabel := "Score"
    title := "2D Grid of Scores"
    xlabel := "Learning Rate"
    ylabel := "Discount" }

/-- The hard-coded input path of `pd.read_csv('out.csv')`. -/
def inputPath : String := "out.csv"

/-- `pd.read_csv` over a filesystem modelled as a partial map from
paths to (already parsed) tables: a missing path is a
`FileNotFoundError`. -/
def read_csv (fs : String → Option Table) (path : String) : Except Err Table :=
  match fs path with
  | none => .error .fileNotFound
  | some t => .ok t

/-- The whole script `src/plot.py`: load `out.csv`, pivot, render.  The
command-line arguments and the environment are parameters of the run
but the script never consults them; any error short-circuits the rest
of the pipeline (there is no `try`/`except` anywhere). -/
def script (fs : String → Option Table) (cliArgs : List String)
    (env : String → Option String) : Except Err Heatmap := do
  let data ← read_csv fs inputPath
  let grid_data ← pivot data
  pure (render grid_data)

/-! ### General list helpers -/

lemma eq_of_perm_of_length_le_one {α : Type} {l₁ l₂ : List α} (h : l₁.Perm l₂)
    (hl : l₁.length ≤ 1) : l₁ = l₂ := by
  cases l₁ with
  | nil => exact (h.symm.eq_nil).symm
  | cons a t =>
    cases t with
    | nil => exact List.singleton_perm.mp h
    | cons b t' => simp at hl

lemma length_le_one_of_nodup_of_const {α : Type} {l : List α} {c : α}
    (hn : l.Nodup) (hc : ∀ x ∈ l, x = c) : l.length ≤ 1 := by
  match l with
  | [] => simp
  | [a] => simp
  | a :: b :: t =>
    exfalso
    have ha := hc a (by simp)
    have hb := hc b (by simp)
    subst ha
    rw [List.nodup_cons] at hn
    exact hn.1 (by simp [hb])

lemma eq_singleton_of_mem_of_length_le_one {α : Type} {l : List α} {r : α}
    (hr : r ∈ l) (hl : l.length ≤ 1) : l = [r] := by
  match l with
  | [] => simp at hr
  | [a] =>
    rw [List.mem_singleton] at hr
    rw [hr]
  | a :: b :: t => simp at hl

/-! ### Properties of the pivot axes -/

lemma mem_distinctSorted {l : List ℚ} {a : ℚ} : a ∈ distinctSorted l ↔ a ∈ l := by
  unfold distinctSorted
  rw [(List.perm_insertionSort _ _).mem_iff, List.mem_dedup]

lemma sorted_distinctSorted (l : List ℚ) : (distinctSorted l).Sorted (· ≤ ·) :=
  List.sorted_insertionSort _ _

lemma nodup_distinctSorted (l : List ℚ) : (distinctSorted l).Nodup :=
  (List.perm_insertionSort _ _).nodup_iff.mpr l.nodup_dedup

lemma length_distinctSorted (l : List ℚ) : (distinctSorted l).length = l.dedup.length :=
  (List.perm_insertionSort _ _).length_eq

lemma distinctSorted_congr {l₁ l₂ : List ℚ} (h : l₁.Perm l₂) :
    distinctSorted l₁ = distinctSorted l₂ :=
  List.eq_of_perm_of_sorted
    (((List.perm_insertionSort _ _).trans h.dedup).trans (List.perm_insertionSort _ _).symm)
    (sorted_distinctSorted l₁) (sorted_distinctSorted l₂)

/-! ### Properties of cell lookup -/

lemma length_filterPair_le_one (t : Table) (h : (t.map pairKey).Nodup) (d l : ℚ) :
    (t.filter fun r => decide (r.discount = d ∧ r.learning_rate = l)).length ≤ 1 := by
  set f := t.filter fun r => decide (r.discount = d ∧ r.learning_rate = l) with hf
  have hsub : List.Sublist (f.map pairKey) (t.map pairKey) :=
    (List.filter_sublist t).map pairKey
  have hnd : (f.map pairKey).Nodup := h.sublist hsub
  have hconst : ∀ x ∈ f.map pairKey, x = (d, l) := by
    intro x hx
    rcases List.mem_map.mp hx with ⟨r, hrf, hrx⟩
    rw [hf, List.mem_filter] at hrf
    have := of_decide_eq_true hrf.2
    rw [← hrx]
    simp [pairKey, this.1, this.2]
  have := length_le_one_of_nodup_of_const hnd hconst
  rwa [List.length_map] at this

lemma lookupScore_eq (t : Table) (h : (t.map pairKey).Nodup) {r : Row} (hr : r ∈ t) :
    lookupScore t r.discount r.learning_rate = some r.score := by
  have hmem : r ∈ t.filter fun x =>
      decide (x.discount = r.discount ∧ x.learning_rate = r.learning_rate) := by
    rw [List.mem_filter]
    exact ⟨hr, by simp⟩
  have hlen := length_filterPair_le_one t h r.discount r.learning_rate
  have hsing := eq_singleton_of_mem_of_length_le_one hmem hlen
  rw [lookupScore, hsing]
  rfl

lemma lookupScore_eq_none (t : Table) (d l : ℚ)
    (h : ∀ r ∈ t, ¬(r.discount = d ∧ r.learning_rate = l)) :
    lookupScore t d l = none := by
  have : (t.filter fun r => decide (r.discount = d ∧ r.learning_rate = l)) = [] := by
    rw [List.filter_eq_nil_iff]
    intro a ha
    simpa using h a ha
  rw [lookupScore, this]
  rfl

lemma lookupScore_perm {t₁ t₂ : Table} (hp : t₁.Perm t₂) (h : (t₁.map pairKey).Nodup)
    (d l : ℚ) : lookupScore t₁ d l = lookupScore t₂ d l := by
  have hperm := hp.filter fun r => decide (r.discount = d ∧ r.learning_rate = l)
  have h1 := length_filterPair_le_one t₁ h d l
  rw [lookupScore, lookupScore, eq_of_perm_of_length_le_one hperm h1]

/-! ### Properties of the pivoted grid -/

lemma pivot_ok {t : Table} {g : Grid} (hg : pivot t = .ok g) :
    (t.map pairKey).Nodup ∧ g = pivotGrid t := by
  by_cases h : (t.map pairKey).Nodup
  · refine ⟨h, ?_⟩
    rw [pivot, if_pos h] at hg
    exact (Except.ok.inj hg).symm
  · rw [pivot, if_neg h] at hg
    exact absurd hg (by simp)

lemma pivot_of_nodup {t : Table} (h : (t.map pairKey).Nodup) :
    pivot t = .ok (pivotGrid t) := by
  rw [pivot, if_pos h]

lemma pivotGrid_lookup (t : Table) {d l : ℚ}
    (hd : d ∈ (pivotGrid t).rowKeys) (hl : l ∈ (pivotGrid t).colKeys) :
    (pivotGrid t).lookup d l = some (lookupScore t d l) := by
  rw [Grid.lookup, if_pos ⟨hd, hl⟩]
  show ((((pivotGrid t).rowKeys.map fun d =>
      (pivotGrid t).colKeys.map fun l => lookupScore t d l))[
        (pivotGrid t).rowKeys.indexOf d]?).bind _ = _
  rw [List.getElem?_map, List.getElem?_indexOf hd]
  show (((pivotGrid t).colKeys.map fun l => lookupScore t d l))[
    (pivotGrid t).colKeys.indexOf l]? = _
  rw [List.getElem?_map, List.getElem?_indexOf hl]
  rfl

lemma pivotGrid_cells_length (t : Table) :
    (pivotGrid t).cells.length = (pivotGrid t).rowKeys.length := by
  simp [pivotGrid]

lemma pivotGrid_row_length (t : Table) {row : List (Option ℚ)}
    (h : row ∈ (pivotGrid t).cells) : row.length = (pivotGrid t).colKeys.length := by
  rcases List.mem_map.mp h with ⟨d, _, hd⟩
  rw [← hd, List.length_map]
  rfl

/-! ### Reduction of the script pipeline -/

lemma script_load_error {fs : String → Option Table} {args : List String}
    {env : String → Option String} {e : Err} (h : read_csv fs inputPath = .error e) :
    script fs args env = .error e := by
  rw [script, h]
  rfl

lemma script_pivot_error {fs : String → Option Table} {args : List String}
    {env : String → Option String} {t : Table} {e : Err}
    (ht : read_csv fs inputPath = .ok t) (hp : pivot t = .error e) :
    script fs args env = .error e := by
  rw [script, ht]
  show (pivot t >>= fun grid_data => pure (render grid_data)) = Except.error e
  rw [hp]
  rfl

lemma script_ok {fs : String → Option Table} {args : List String}
    {env : String → Option String} {t : Table} {g : Grid}
    (ht : read_csv fs inputPath = .ok t) (hp : pivot t = .ok g) :
    script fs args env = .ok (render g) := by
  rw [script, ht]
  show (pivot t >>= fun grid_data => pure (render grid_data)) = Except.ok (render g)
  rw [hp]
  rfl

/-! ### Evaluation helpers for concrete tables -/

lemma lookupScore_cons_hit {r : Row} {rest : Table} {d l : ℚ}
    (h1 : r.discount = d) (h2 : r.learning_rate = l) :
    lookupScore (r :: rest) d l = some r.score := by
  rw [lookupScore, List.filter_cons, if_pos (by simp [h1, h2])]
  rfl

lemma lookupScore_cons_miss {r : Row} {rest : Table} {d l : ℚ}
    (h : ¬(r.discount = d ∧ r.learning_rate = l)) :
    lookupScore (r :: rest) d l = lookupScore rest d l := by
  rw [lookupScore, List.filter_cons, if_neg (by simpa using h)]
  rfl

lemma distinctSorted_aabb {a b : ℚ} (h : a < b) :
    distinctSorted [a, a, b, b] = [a, b] := by
  unfold distinctSorted
  rw [List.dedup_cons_of_mem (by simp), List.dedup_cons_of_not_mem (by simp [h.ne]),
    List.dedup_cons_of_mem (by simp), List.dedup_cons_of_not_mem (by simp), List.dedup_nil]
  simp [List.insertionSort, List.orderedInsert, h.le]

lemma distinctSorted_cdcd {c d : ℚ} (h : c < d) :
    distinctSorted [c, d, c, d] = [c, d] := by
  unfold distinctSorted
  rw [List.dedup_cons_of_mem (by simp), List.dedup_cons_of_mem (by simp),
    List.dedup_cons_of_not_mem (by simp [h.ne]), List.dedup_cons_of_not_mem (by simp),
    List.dedup_nil]
  simp [List.insertionSort, List.orderedInsert, h.le]

lemma digitChar_isDigit {k : Nat} (h : k < 10) : (digitChar k).isDigit = true := by
  interval_cases k <;> decide

lemma natToDigitsAux_isDigit (fuel n : Nat) :
    ∀ c ∈ natToDigitsAux fuel n, c.isDigit = true := by
  induction fuel generalizing n with
  | zero => simp [natToDigitsAux]
  | succ fuel ih =>
    intro c hc
    rw [natToDigitsAux] at hc
    by_cases h : n < 10
    · rw [if_pos h] at hc
      rw [List.mem_singleton] at hc
      rw [hc]
      exact digitChar_isDigit h
    · rw [if_neg h] at hc
      rcases List.mem_append.mp hc with hc' | hc'
      · exact ih (n / 10) c hc'
      · rw [List.mem_singleton] at hc'
        rw [hc']
        exact digitChar_isDigit (Nat.mod_lt n (by omega))

/-! ### The claims -/

/-- Claim C1: for every well-formed input table whose (discount,
learning_rate) pairs are all unique, the pivot produces a grid with
exactly one score per pair — the axes are duplicate-free and the unique
cell keyed by an input row's pair holds that row's score — and the
grid's dimensions are (number of distinct discount values) × (number of
distinct learning_rate values). -/
theorem C1_pivot_unique_scores_and_dims (t : Table) (g : Grid)
    (hg : pivot t = .ok g) :
    g.rowKeys.length = (t.map Row.discount).dedup.length ∧
    g.colKeys.length = (t.map Row.learning_rate).dedup.length ∧
    g.cells.length = g.rowKeys.length ∧
    (∀ row ∈ g.cells, row.length = g.colKeys.length) ∧
    g.rowKeys.Nodup ∧ g.colKeys.Nodup ∧
    ∀ r ∈ t, g.lookup r.discount r.learning_rate = some (some r.score) := by
  obtain ⟨hnd, rfl⟩ := pivot_ok hg
  refine ⟨length_distinctSorted _, length_distinctSorted _, pivotGrid_cells_length t,
    fun row hrow => pivotGrid_row_length t hrow, nodup_distinctSorted _,
    nodup_distinctSorted _, ?_⟩
  intro r hr
  have hd : r.discount ∈ (pivotGrid t).rowKeys :=
    mem_distinctSorted.mpr (List.mem_map_of_mem Row.discount hr)
  have hl : r.learning_rate ∈ (pivotGrid t).colKeys :=
    mem_distinctSorted.mpr (List.mem_map_of_mem Row.learning_rate hr)
  rw [pivotGrid_lookup t hd hl, lookupScore_eq t hnd hr]

/-- Claim C1, witnessed on a concrete two-row table. -/
theorem C1_witness :
    pivot [(⟨0.9, 0.01, 0.75⟩ : Row), ⟨0.99, 0.1, 0.91⟩] =
      .ok (pivotGrid [⟨0.9, 0.01, 0.75⟩, ⟨0.99, 0.1, 0.91⟩]) ∧
    ∀ r ∈ ([⟨0.9, 0.01, 0.75⟩, ⟨0.99, 0.1, 0.91⟩] : Table),
      (pivotGrid [(⟨0.9, 0.01, 0.75⟩ : Row), ⟨0.99, 0.1, 0.91⟩]).lookup
        r.discount r.learning_rate = some (some r.score) := by
  have hnd : (([⟨0.9, 0.01, 0.75⟩, ⟨0.99, 0.1, 0.91⟩] : Table).map pairKey).Nodup := by
    norm_num [pairKey]
  exact ⟨pivot_of_nodup hnd,
    (C1_pivot_unique_scores_and_dims _ _ (pivot_of_nodup hnd)).2.2.2.2.2.2⟩

/-- Claim C2: for every input table containing a duplicate (discount,
learning_rate) pair, the pivot signals an error (pandas'
`ValueError: Index contains duplicate entries, cannot reshape`); it
never returns a grid, so no value is dropped or averaged. -/
theorem C2_pivot_duplicate_error (t : Table) (h : ¬(t.map pairKey).Nodup) :
    pivot t = .error .duplicateIndex ∧ ∀ g : Grid, pivot t ≠ .ok g := by
  rw [pivot, if_neg h]
  exact ⟨rfl, by simp⟩

/-- Claim C2, witnessed on a table repeating the pair (0.9, 0.01). -/
theorem C2_witness :
    pivot [(⟨0.9, 0.01, 0.75⟩ : Row), ⟨0.9, 0.01, 0.82⟩] = .error .duplicateIndex :=
  (C2_pivot_duplicate_error _ (by simp [pairKey])).1

/-- Claim C3: pivoting the spec's concrete 4-row table yields a 2×2
grid with row keys 0.9 and 0.99, column keys 0.01 and 0.1, and the
score 0.91 in the cell keyed (0.99, 0.1). -/
theorem C3_concrete_four_row_example :
    ∃ g : Grid,
      pivot [(⟨0.9, 0.01, 0.75⟩ : Row), ⟨0.9, 0.1, 0.80⟩,
        ⟨0.99, 0.01, 0.82⟩, ⟨0.99, 0.1, 0.91⟩] = .ok g ∧
      g.rowKeys = [0.9, 0.99] ∧ g.colKeys = [0.01, 0.1] ∧
      g.cells.length = 2 ∧ (∀ row ∈ g.cells, row.length = 2) ∧
      g.lookup 0.99 0.1 = some (some 0.91) := by
  set t : Table := [⟨0.9, 0.01, 0.75⟩, ⟨0.9, 0.1, 0.80⟩,
    ⟨0.99, 0.01, 0.82⟩, ⟨0.99, 0.1, 0.91⟩] with ht
  have hrow : (pivotGrid t).rowKeys = [0.9, 0.99] := by
    show distinctSorted (t.map Row.discount) = _
    have hmap : t.map Row.discount = [0.9, 0.9, 0.99, 0.99] := rfl
    rw [hmap, distinctSorted_aabb (by norm_num)]
  have hcol : (pivotGrid t).colKeys = [0.01, 0.1] := by
    show distinctSorted (t.map Row.learning_rate) = _
    have hmap : t.map Row.learning_rate = [0.01, 0.1, 0.01, 0.1] := rfl
    rw [hmap, distinctSorted_cdcd (by norm_num)]
  have hnd : (t.map pairKey).Nodup := by norm_num [ht, pairKey]
  refine ⟨pivotGrid t, pivot_of_nodup hnd, hrow, hcol, ?_, ?_, ?_⟩
  · rw [pivotGrid_cells_length, hrow]
    rfl
  · intro row hmem
    rw [pivotGrid_row_length t hmem, hcol]
    rfl
  · have hd : (0.99 : ℚ) ∈ (pivotGrid t).rowKeys := by rw [hrow]; norm_num
    have hl : (0.1 : ℚ) ∈ (pivotGrid t).colKeys := by rw [hcol]; norm_num
    rw [pivotGrid_lookup t hd hl]
    have hv : lookupScore t 0.99 0.1 = some 0.91 := by
      rw [ht, lookupScore_cons_miss (by norm_num), lookupScore_cons_miss (by norm_num),
        lookupScore_cons_miss (by norm_num), lookupScore_cons_hit rfl rfl]
    rw [hv]

/-- Claim C4: whenever the input path is missing from the filesystem,
the run fails with the load error itself: no pivot result and no
rendering appears in the outcome, whatever the command line and
environment are. -/
theorem C4_missing_file_fails_first (fs : String → Option Table)
    (args : List String) (env : String → Option String)
    (h : fs inputPath = none) :
    script fs args env = .error .fileNotFound ∧
    ∀ hm : Heatmap, script fs args env ≠ .ok hm := by
  have : read_csv fs inputPath = .error .fileNotFound := by rw [read_csv, h]
  refine ⟨script_load_error this, ?_⟩
  rw [script_load_error this]
  simp

/-- Claim C4, witnessed on the empty filesystem. -/
theorem C4_witness :
    script (fun _ => none) [] (fun _ => none) = .error .fileNotFound :=
  (C4_missing_file_fails_first (fun _ => none) [] (fun _ => none) rfl).1

/-- Claim C5: `fmt=".4f"` renders every annotated score with exactly 4
digits after the decimal point; in particular 0.75 renders as
"0.7500". -/
theorem C5_format_exactly_four_decimals :
    (∀ q : ℚ, ∃ intPart fracPart : String,
      formatFixed4 q = intPart ++ "." ++ fracPart ∧
      fracPart.length = 4 ∧ ∀ c ∈ fracPart.data, c.isDigit = true) ∧
    formatFixed4 0.75 = "0.7500" := by
  constructor
  · intro q
    refine ⟨(if round (q * 10000) < 0 then "-" else "") ++
        String.mk (natToDigits ((round (q * 10000)).natAbs / 10000)),
      String.mk [digitChar ((round (q * 10000)).natAbs % 10000 / 1000),
        digitChar ((round (q * 10000)).natAbs % 1000 / 100),
        digitChar ((round (q * 10000)).natAbs % 100 / 10),
        digitChar ((round (q * 10000)).natAbs % 10)], rfl, rfl, ?_⟩
    intro c hc
    have hc' : c ∈ [digitChar ((round (q * 10000)).natAbs % 10000 / 1000),
        digitChar ((round (q * 10000)).natAbs % 1000 / 100),
        digitChar ((round (q * 10000)).natAbs % 100 / 10),
        digitChar ((round (q * 10000)).natAbs % 10)] := hc
    simp only [List.mem_cons, List.not_mem_nil, or_false] at hc'
    rcases hc' with rfl | rfl | rfl | rfl <;> exact digitChar_isDigit (by omega)
  · have h1 : round ((0.75 : ℚ) * 10000) = 7500 := by
      rw [round_eq]
      norm_num
    simp only [formatFixed4, h1]
    rfl

/-- Claim C6: the input path is the constant `out.csv`; the script's
outcome never depends on the command-line arguments or the environment,
and depends on the filesystem only through the path `out.csv`. -/
theorem C6_hardcoded_input_path :
    inputPath = "out.csv" ∧
    (∀ (fs : String → Option Table) args₁ env₁ args₂ env₂,
      script fs args₁ env₁ = script fs args₂ env₂) ∧
    (∀ (fs fs' : String → Option Table) args env, fs "out.csv" = fs' "out.csv" →
      script fs args env = script fs' args env) := by
  refine ⟨rfl, fun _ _ _ _ _ => rfl, fun fs fs' args env h => ?_⟩
  rw [script, script, read_csv, read_csv]
  rw [show fs inputPath = fs' inputPath from h]

/-- Claim C6, witnessed: a run with CLI flags and environment variables
set equals a run with neither. -/
theorem C6_witness :
    script (fun _ => some []) ["--input", "other.csv"] (fun _ => some "other.csv") =
      script (fun _ => some []) [] (fun _ => none) :=
  C6_hardcoded_input_path.2.1 (fun _ => some []) _ _ _ _

/-- Claim C7: for a table with unique (discount, learning_rate) pairs,
pivoting any permutation of its rows yields the same result. -/
theorem C7_pivot_perm_invariant (t₁ t₂ : Table) (hperm : t₁.Perm t₂)
    (h : (t₁.map pairKey).Nodup) : pivot t₁ = pivot t₂ := by
  have h₂ : (t₂.map pairKey).Nodup := ((hperm.map pairKey).nodup_iff).mp h
  rw [pivot_of_nodup h, pivot_of_nodup h₂]
  have hd : distinctSorted (t₁.map Row.discount) = distinctSorted (t₂.map Row.discount) :=
    distinctSorted_congr (hperm.map Row.discount)
  have hl : distinctSorted (t₁.map Row.learning_rate) =
      distinctSorted (t₂.map Row.learning_rate) :=
    distinctSorted_congr (hperm.map Row.learning_rate)
  simp only [pivotGrid, hd, hl, lookupScore_perm hperm h]

/-- Claim C7, witnessed on a two-row table and its swap. -/
theorem C7_witness :
    pivot [(⟨0.9, 0.01, 0.75⟩ : Row), ⟨0.99, 0.1, 0.91⟩] =
      pivot [⟨0.99, 0.1, 0.91⟩, ⟨0.9, 0.01, 0.75⟩] :=
  C7_pivot_perm_invariant _ _ (List.Perm.swap _ _ _) (by norm_num [pairKey])

/-- Claim C8: the script catches nothing: a load error is the run's
outcome, and a pivot error after a successful load is the run's
outcome — there is no retry, no fallback, and no partial (`.ok`)
output in either case. -/
theorem C8_errors_uncaught (fs : String → Option Table) (args : List String)
    (env : String → Option String) :
    (∀ e, read_csv fs inputPath = .error e → script fs args env = .error e) ∧
    (∀ t e, read_csv fs inputPath = .ok t → pivot t = .error e →
      script fs args env = .error e) := by
  exact ⟨fun e he => script_load_error he, fun t e ht hp => script_pivot_error ht hp⟩

/-- Claim C8, witnessed: a duplicate-pair table behind `out.csv` makes
the pivot error the run's outcome. -/
theorem C8_witness :
    script (fun _ => some [⟨0.9, 0.01, 0.75⟩, ⟨0.9, 0.01, 0.82⟩]) [] (fun _ => none) =
      .error .duplicateIndex :=
  (C8_errors_uncaught _ [] _).2 [⟨0.9, 0.01, 0.75⟩, ⟨0.9, 0.01, 0.82⟩] .duplicateIndex
    rfl (by rw [pivot, if_neg (by simp [pairKey])])

/-- Claim C9: the grid a successful pivot produces has its row keys and
its column keys in ascending order without duplicates, and they are
exactly the distinct values of the corresponding input column —
independent of the order rows appear in. -/
theorem C9_axes_sorted (t : Table) (g : Grid) (hg : pivot t = .ok g) :
    g.rowKeys.Sorted (· ≤ ·) ∧ g.rowKeys.Nodup ∧
    (∀ d, d ∈ g.rowKeys ↔ d ∈ t.map Row.discount) ∧
    g.colKeys.Sorted (· ≤ ·) ∧ g.colKeys.Nodup ∧
    (∀ l, l ∈ g.colKeys ↔ l ∈ t.map Row.learning_rate) := by
  obtain ⟨-, rfl⟩ := pivot_ok hg
  exact ⟨sorted_distinctSorted _, nodup_distinctSorted _, fun d => mem_distinctSorted,
    sorted_distinctSorted _, nodup_distinctSorted _, fun l => mem_distinctSorted⟩

/-- Claim C9, witnessed on a concrete table. -/
theorem C9_witness :
    (pivotGrid [(⟨0.99, 0.1, 0.91⟩ : Row), ⟨0.9, 0.01, 0.75⟩]).rowKeys.Sorted (· ≤ ·) ∧
    (pivotGrid [(⟨0.99, 0.1, 0.91⟩ : Row), ⟨0.9, 0.01, 0.75⟩]).colKeys.Sorted (· ≤ ·) := by
  have h := C9_axes_sorted _ _ (pivot_of_nodup (t := [⟨0.99, 0.1, 0.91⟩, ⟨0.9, 0.01, 0.75⟩])
    (by norm_num [pairKey]))
  exact ⟨h.1, h.2.2.2.1⟩

/-- Claim C10: a successful pivot spans the full cross product of the
distinct discount and learning_rate values — every (row key, column
key) combination addresses a cell — and a combination with no matching
input row holds the missing value (NaN, here `none`) instead of being
omitted or erroring. -/
theorem C10_full_cross_product (t : Table) (g : Grid) (hg : pivot t = .ok g) :
    g.cells.length = g.rowKeys.length ∧
    (∀ row ∈ g.cells, row.length = g.colKeys.length) ∧
    (∀ d l, d ∈ g.rowKeys → l ∈ g.colKeys → ∃ c, g.lookup d l = some c) ∧
    (∀ d l, d ∈ g.rowKeys → l ∈ g.colKeys →
      (∀ r ∈ t, ¬(r.discount = d ∧ r.learning_rate = l)) →
      g.lookup d l = some none) := by
  obtain ⟨hnd, rfl⟩ := pivot_ok hg
  refine ⟨pivotGrid_cells_length t, fun row hrow => pivotGrid_row_length t hrow, ?_, ?_⟩
  · intro d l hd hl
    exact ⟨lookupScore t d l, pivotGrid_lookup t hd hl⟩
  · intro d l hd hl hnone
    rw [pivotGrid_lookup t hd hl, lookupScore_eq_none t d l hnone]

/-- Claim C10, witnessed: two rows covering only the diagonal of a 2×2
key space; the off-diagonal combination (0.9, 0.1) is a NaN cell. -/
theorem C10_witness :
    (pivotGrid [(⟨0.9, 0.01, 0.75⟩ : Row), ⟨0.99, 0.1, 0.91⟩]).lookup 0.9 0.1 =
      some none := by
  have hok := pivot_of_nodup (t := [⟨0.9, 0.01, 0.75⟩, ⟨0.99, 0.1, 0.91⟩])
    (by norm_num [pairKey])
  refine (C10_full_cross_product _ _ hok).2.2.2 0.9 0.1 ?_ ?_ ?_
  · exact mem_distinctSorted.mpr (by simp)
  · exact mem_distinctSorted.mpr (by simp)
  · intro r hr
    simp only [List.mem_cons, List.not_mem_nil, or_false] at hr
    rcases hr with rfl | rfl <;> norm_num

end Whister
